import Mathlib

/-!
Shallow embedding of the AMR burden-prediction core pipeline (src/app.py).

Python floats are modelled by rationals (ℚ), Python strings by Lean
strings, Python dicts by insertion-ordered association lists
(`List (String × α)`), and `pandas` row/column access by explicit
association-list lookup.  The frozen scaler and regression model are
opaque artifacts loaded at startup; they are modelled as opaque function
parameters of the pipeline, since only their invocation (not their
behaviour) matters to the claims.
-/

namespace AMR

/-- Models Python's `str.lower` on a single character, for the character
repertoire appearing in this program's mechanism labels: ASCII letters
`A`-`Z` are mapped to `a`-`z` and the Greek capital Beta `Β` (U+0392) is
mapped to `β` (U+03B2); every other character occurring in the labels is
already unaffected by Python's lowering. -/
def pyCharLower (c : Char) : Char :=
  if 'A' ≤ c ∧ c ≤ 'Z' then Char.ofNat (c.toNat + 32)
  else if c = 'Β' then 'β'
  else c

/-- Models Python's `str.lower` (see `pyCharLower` for the repertoire). -/
def pyLower (s : String) : String :=
  ⟨s.data.map pyCharLower⟩

/-- Predicate `pyStartsWith needle hay`: `hay` begins with `needle` (character lists). -/
def pyStartsWith : List Char → List Char → Bool
  | [], _ => true
  | _ :: _, [] => false
  | a :: as, b :: bs => a == b && pyStartsWith as bs

/-- Auxiliary for `pyIn`: substring test on character lists. -/
def pyInAux (needle : List Char) : List Char → Bool
  | [] => needle.isEmpty
  | b :: bs => pyStartsWith needle (b :: bs) || pyInAux needle bs

/-- Models Python's `needle in hay` on strings (substring containment). -/
def pyIn (needle hay : String) : Bool :=
  pyInAux needle.data hay.data

/-- Models Python's `round(x, 3)`: round to the nearest multiple of
`1/1000` (ties are immaterial to the claims; CPython rounds ties on the
underlying binary float). -/
def round3 (q : ℚ) : ℚ :=
  (round (1000 * q) : ℤ) / 1000

/-- Embeds `risk_category` (src/app.py lines 184-189): `score < 3e6 → "Low"`,
`score < 5e6 → "Moderate"`, otherwise `"High"`. -/
def risk_category (score : ℚ) : String :=
  if score < 3000000 then "Low"
  else if score < 5000000 then "Moderate"
  else "High"

/-- Models Python's `dict(zip(keys, vals)).get(k, dflt)` built from the
pair list `pairs`: the value of the LAST binding of `k` (later bindings
of a duplicate key overwrite earlier ones in a Python dict), or `dflt`
when `k` is absent. -/
def dictGet (pairs : List (String × String)) (k dflt : String) : String :=
  match pairs.reverse.find? (fun p => p.1 == k) with
  | some p => p.2
  | none => dflt

/-- Embeds `GENE_TO_MECH.get(gene, "Non-Specific Resistance")` (src/app.py
lines 176-179 and 201): mechanism of a gene with the non-specific
fallback for unrecognized gene ids. `geneInfo` is the loaded catalog,
a list of `(AMR_Gene, Resistance_Mechanism)` rows. -/
def mechOf (geneInfo : List (String × String)) (gene : String) : String :=
  dictGet geneInfo gene "Non-Specific Resistance"

/-- Embeds `TOP_GENES` (src/app.py line 175): the catalog's gene column. -/
def topGenes (geneInfo : List (String × String)) : List String :=
  geneInfo.map Prod.fst

/-- Embeds `mech_scores[mech] = mech_scores.get(mech, 0) + value` (src/app.py
line 202) on an insertion-ordered dict: add `v` to the binding of `k`,
appending a new binding at the end when `k` is absent. -/
def addTo (acc : List (String × ℚ)) (k : String) (v : ℚ) : List (String × ℚ) :=
  match acc with
  | [] => [(k, v)]
  | (k₀, v₀) :: t => if k₀ = k then (k₀, v₀ + v) :: t else (k₀, v₀) :: addTo t k v

/-- The accumulation loop of `compute_sample_mechanisms` (src/app.py
lines 199-202): fold the sample's `(gene, value)` items into mechanism
buckets. -/
def accumulate (geneInfo : List (String × String)) (acc : List (String × ℚ)) :
    List (String × ℚ) → List (String × ℚ)
  | [] => acc
  | (g, v) :: t => accumulate geneInfo (addTo acc (mechOf geneInfo g) v) t

/-- Embeds `sum(d.values())` for an association-list dict. -/
def sumValues (l : List (String × ℚ)) : ℚ :=
  (l.map Prod.snd).sum

/-- Embeds `compute_sample_mechanisms` (src/app.py lines 198-207): accumulate
raw abundances by mechanism, then normalize each bucket by the total
(rounded to 3 decimals) when the total is positive, else map every
bucket to 0. -/
def compute_sample_mechanisms (geneInfo : List (String × String))
    (sample : List (String × ℚ)) : List (String × ℚ) :=
  let mech_scores := accumulate geneInfo [] sample
  let total := sumValues mech_scores
  if total > 0 then
    mech_scores.map (fun kv => (kv.1, round3 (kv.2 / total)))
  else
    mech_scores.map (fun kv => (kv.1, 0))

/-- The running-maximum loop behind Python's `max(mech_profile,
key=mech_profile.get)` (src/app.py line 213): the current best is
replaced only when a later item is STRICTLY greater, so the first item
attaining the maximum wins. -/
def pyMaxAux (cur : String × ℚ) : List (String × ℚ) → String × ℚ
  | [] => cur
  | x :: t => pyMaxAux (if x.2 > cur.2 then x else cur) t

/-- The six interpretation messages (src/app.py lines 209-233). -/
def msgNoSig : String := "No significant resistance mechanisms detected"

def msgMulti : String := "Multiple resistance mechanisms contributing equally"

def msgNonSpec : String :=
  "Resistance is dominated by Non-Specific Resistance mechanisms with indirect AMR contribution"

def msgBeta : String := "β-lactamase–mediated resistance is prominent"

def msgEfflux : String := "Efflux-based multidrug resistance likely"

def msgMixed : String := "Mixed resistance mechanisms observed"

/-- Embeds `interpret` (src/app.py lines 209-233): empty profile first, then a
priority chain on the dominant mechanism (first key attaining the
maximum proportion).  Note the `"β-lactamase" in dominant` test is on
the ORIGINAL label (case-sensitive) while the other substring tests are
on the lowered label. -/
def interpret (mech_profile : List (String × ℚ)) : String :=
  match mech_profile with
  | [] => msgNoSig
  | x :: t =>
    let dominant := pyMaxAux x t
    let dominant_percentage := dominant.2
    if dominant_percentage < 3 / 10 then msgMulti
    else
      let dominant_lower := pyLower dominant.1
      if pyIn "non-specific" dominant_lower then msgNonSpec
      else if pyIn "β-lactamase" dominant.1 || pyIn "beta-lactamase" dominant_lower then msgBeta
      else if pyIn "efflux" dominant_lower then msgEfflux
      else msgMixed

/-- An uploaded table after `pd.read_csv(..., index_col=0)`: column
names plus rows keyed by sample id, each row an association list from
column name to abundance. -/
structure Table where
  cols : List String
  rows : List (String × List (String × ℚ))

/-- Embeds `row[gene]` for a projected row: first binding of `gene` (0 when
absent; validation guarantees presence before this is used). -/
def rowGet (row : List (String × ℚ)) (gene : String) : ℚ :=
  match row.find? (fun p => p.1 == gene) with
  | some p => p.2
  | none => 0

/-- Per-sample structured output assembled by the app (src/app.py
lines 392-398 / 420-426). -/
structure SampleResult where
  sampleId : String
  score : ℚ
  riskCat : String
  mechProfile : List (String × ℚ)
  interpretation : String

/-- Outcome of processing an upload: validation failure carrying the
missing-gene set and the `(found, missing)` counts shown to the user
(src/app.py lines 273-292), or success carrying the projected rows and
the per-sample results. -/
inductive ProcessResult where
  | invalid (missing : List String) (foundCount missingCount : Nat)
  | success (projRows : List (String × List (String × ℚ)))
      (results : List SampleResult)

/-- Embeds `missing = set(TOP_GENES) - set(df.columns)` (src/app.py line 273),
as a duplicate-free list in catalog order. -/
def missingGenes (geneInfo : List (String × String)) (tbl : Table) : List String :=
  ((topGenes geneInfo).filter (fun g => ¬ tbl.cols.contains g)).dedup

/-- Embeds `len(set(TOP_GENES) & set(df.columns))` (src/app.py line 282). -/
def foundCount (geneInfo : List (String × String)) (tbl : Table) : Nat :=
  (((topGenes geneInfo).filter (fun g => tbl.cols.contains g)).dedup).length

/-- The upload-processing pipeline (src/app.py lines 268-324): check for
missing required genes and stop on failure (`st.stop()`, line 292)
BEFORE the scaler or the model is ever invoked; on success project the
table to exactly `TOP_GENES` in catalog order (`df = df[TOP_GENES]`,
line 295), scale, predict, classify, and build each sample's mechanism
profile and interpretation from the projected row.  `scalerF` and
`predictF` are the opaque frozen artifacts. -/
def processTable (geneInfo : List (String × String))
    (scalerF : List ℚ → List ℚ) (predictF : List ℚ → ℚ)
    (tbl : Table) : ProcessResult :=
  let missing := missingGenes geneInfo tbl
  if missing.isEmpty then
    let projRows := tbl.rows.map
      (fun r => (r.1, (topGenes geneInfo).map (fun g => (g, rowGet r.2 g))))
    let results := projRows.map (fun r =>
      let score := predictF (scalerF (r.2.map Prod.snd))
      let profile := compute_sample_mechanisms geneInfo r.2
      ⟨r.1, score, risk_category score, profile, interpret profile⟩)
    .success projRows results
  else
    .invalid missing (foundCount geneInfo tbl) missing.length


/-- Ordering of risk categories, Low < Moderate < High (the spec's total
order on `RiskCategory`), as a rank on the strings `risk_category`
returns. -/
def catRank (c : String) : ℕ :=
  if c = "Low" then 0 else if c = "Moderate" then 1 else 2

/-- C1: for every score `s`, `risk_category` returns Low when
`s < 3,000,000`, Moderate when `3,000,000 ≤ s < 5,000,000`, High when
`5,000,000 ≤ s`; in particular the score 3,000,000 is Moderate and the
score 5,000,000 is High. -/
theorem claim_C1 (s : ℚ) :
    (s < 3000000 → risk_category s = "Low") ∧
    (3000000 ≤ s → s < 5000000 → risk_category s = "Moderate") ∧
    (5000000 ≤ s → risk_category s = "High") ∧
    risk_category 3000000 = "Moderate" ∧ risk_category 5000000 = "High" := by
  refine ⟨?_, ?_, ?_, by decide, by decide⟩
  · intro h
    unfold risk_category
    rw [if_pos h]
  · intro h1 h2
    unfold risk_category
    rw [if_neg (not_lt.mpr h1), if_pos h2]
  · intro h
    unfold risk_category
    rw [if_neg (by linarith), if_neg (not_lt.mpr h)]

/-- Witness for C1 at the concrete scores 0, 4,000,000 and 6,000,000. -/
theorem claim_C1_witness :
    risk_category 0 = "Low" ∧ risk_category 4000000 = "Moderate" ∧
      risk_category 6000000 = "High" :=
  ⟨(claim_C1 0).1 (by norm_num),
   (claim_C1 4000000).2.1 (by norm_num) (by norm_num),
   (claim_C1 6000000).2.2.1 (by norm_num)⟩

/-- C8: `risk_category` is monotone non-decreasing in the score under
the order Low < Moderate < High, and the three bands partition the
scores: each category holds exactly on its band. -/
theorem claim_C8 (s₁ s₂ : ℚ) (h : s₁ ≤ s₂) :
    catRank (risk_category s₁) ≤ catRank (risk_category s₂) ∧
    ∀ s : ℚ, (risk_category s = "Low" ↔ s < 3000000) ∧
      (risk_category s = "Moderate" ↔ 3000000 ≤ s ∧ s < 5000000) ∧
      (risk_category s = "High" ↔ 5000000 ≤ s) := by
  constructor
  · unfold risk_category
    split_ifs <;> first | decide | linarith
  · intro s
    unfold risk_category
    split_ifs with h1 h2
    · exact ⟨iff_of_true rfl h1,
        iff_of_false (by decide) (fun hc => absurd h1 (not_lt.mpr hc.1)),
        iff_of_false (by decide) (fun hc => absurd h1 (not_lt.mpr (by linarith)))⟩
    · exact ⟨iff_of_false (by decide) h1,
        iff_of_true rfl ⟨not_lt.mp h1, h2⟩,
        iff_of_false (by decide) (fun hc => absurd h2 (not_lt.mpr hc))⟩
    · exact ⟨iff_of_false (by decide) h1,
        iff_of_false (by decide) (fun hc => h2 hc.2),
        iff_of_true rfl (not_lt.mp h2)⟩

/-- Witness for C8 at the concrete pair 1,000,000 ≤ 6,000,000 and the
concrete score 7,000,000. -/
theorem claim_C8_witness :
    catRank (risk_category 1000000) ≤ catRank (risk_category 6000000) ∧
      (risk_category 7000000 = "High" ↔ (5000000 : ℚ) ≤ 7000000) :=
  ⟨(claim_C8 1000000 6000000 (by norm_num)).1,
   ((claim_C8 0 0 le_rfl).2 7000000).2.2⟩

/-- Unfolding of `interpret` on a non-empty profile: the rule chain on
the dominant mechanism `pyMaxAux x t`. -/
lemma interpret_cons (x : String × ℚ) (t : List (String × ℚ)) :
    interpret (x :: t) =
      if (pyMaxAux x t).2 < 3 / 10 then msgMulti
      else if pyIn "non-specific" (pyLower (pyMaxAux x t).1) then msgNonSpec
      else if pyIn "β-lactamase" (pyMaxAux x t).1
          || pyIn "beta-lactamase" (pyLower (pyMaxAux x t).1) then msgBeta
      else if pyIn "efflux" (pyLower (pyMaxAux x t).1) then msgEfflux
      else msgMixed := rfl

/-- C9: `interpret` is total and its image is exactly the six fixed
messages: on any profile it returns one of them and nothing else. -/
theorem claim_C9 (p : List (String × ℚ)) :
    interpret p = msgNoSig ∨ interpret p = msgMulti ∨ interpret p = msgNonSpec ∨
      interpret p = msgBeta ∨ interpret p = msgEfflux ∨ interpret p = msgMixed := by
  cases p with
  | nil => exact Or.inl rfl
  | cons x t =>
    rw [interpret_cons]
    split_ifs <;> tauto

/-- Keys of an association-list dict, in insertion order. -/
def keysOf (l : List (String × ℚ)) : List String :=
  l.map Prod.fst

/-- Sum of the raw abundances of the genes of `s` whose canonical
mechanism is `m` — the bucket sum the spec describes for the
aggregator. -/
def specSum (gi : List (String × String)) (s : List (String × ℚ)) (m : String) : ℚ :=
  ((s.filter (fun gv => mechOf gi gv.1 == m)).map Prod.snd).sum

/-- Sum of the values bound to key `m` in an association list (its
unique binding when keys are distinct). -/
def sumKey (l : List (String × ℚ)) (m : String) : ℚ :=
  ((l.filter (fun p => p.1 == m)).map Prod.snd).sum

lemma sumValues_cons (a : String × ℚ) (l : List (String × ℚ)) :
    sumValues (a :: l) = a.2 + sumValues l := by
  simp [sumValues]

lemma addTo_sumValues (acc : List (String × ℚ)) (k : String) (v : ℚ) :
    sumValues (addTo acc k v) = sumValues acc + v := by
  induction acc with
  | nil => simp [addTo, sumValues]
  | cons a t ih =>
    obtain ⟨k₀, v₀⟩ := a
    unfold addTo
    split_ifs with hk
    · rw [sumValues_cons, sumValues_cons]
      ring
    · rw [sumValues_cons, sumValues_cons, ih]
      ring

lemma accumulate_sumValues (gi : List (String × String)) (s : List (String × ℚ)) :
    ∀ acc, sumValues (accumulate gi acc s) = sumValues acc + sumValues s := by
  induction s with
  | nil => intro acc; simp [accumulate, sumValues]
  | cons gv t ih =>
    intro acc
    obtain ⟨g, v⟩ := gv
    rw [accumulate, ih, addTo_sumValues, sumValues_cons]
    ring

lemma sumKey_cons (a : String × ℚ) (l : List (String × ℚ)) (m : String) :
    sumKey (a :: l) m = (if a.1 = m then a.2 else 0) + sumKey l m := by
  unfold sumKey
  rcases eq_or_ne a.1 m with h | h
  · rw [if_pos h, List.filter_cons_of_pos (by simpa using h)]
    simp
  · rw [if_neg h, List.filter_cons_of_neg (by simpa using h)]
    simp

lemma addTo_sumKey (acc : List (String × ℚ)) (k : String) (v : ℚ) (m : String) :
    sumKey (addTo acc k v) m = sumKey acc m + (if k = m then v else 0) := by
  induction acc with
  | nil =>
    show sumKey [(k, v)] m = sumKey [] m + _
    rw [sumKey_cons]
    simp [sumKey]
  | cons a t ih =>
    obtain ⟨k₀, v₀⟩ := a
    have e : addTo ((k₀, v₀) :: t) k v =
        if k₀ = k then (k₀, v₀ + v) :: t else (k₀, v₀) :: addTo t k v := rfl
    by_cases hk : k₀ = k
    · subst hk
      rw [e, if_pos rfl, sumKey_cons, sumKey_cons]
      dsimp only
      split_ifs with hm <;> ring
    · rw [e, if_neg hk, sumKey_cons, sumKey_cons, ih]
      ring

lemma accumulate_sumKey (gi : List (String × String)) (s : List (String × ℚ)) :
    ∀ acc m, sumKey (accumulate gi acc s) m = sumKey acc m + specSum gi s m := by
  induction s with
  | nil => intro acc m; simp [accumulate, specSum]
  | cons gv t ih =>
    intro acc m
    obtain ⟨g, v⟩ := gv
    rw [accumulate, ih, addTo_sumKey]
    unfold specSum
    rcases eq_or_ne (mechOf gi g) m with h | h
    · rw [List.filter_cons_of_pos (by simpa using h), if_pos h]
      simp [specSum]
      ring
    · rw [List.filter_cons_of_neg (by simpa using h), if_neg h]
      simp [specSum]

lemma addTo_keysOf (acc : List (String × ℚ)) (k : String) (v : ℚ) :
    keysOf (addTo acc k v) =
      if k ∈ keysOf acc then keysOf acc else keysOf acc ++ [k] := by
  induction acc with
  | nil => simp [addTo, keysOf]
  | cons a t ih =>
    obtain ⟨k₀, v₀⟩ := a
    have e : addTo ((k₀, v₀) :: t) k v =
        if k₀ = k then (k₀, v₀ + v) :: t else (k₀, v₀) :: addTo t k v := rfl
    by_cases hk : k₀ = k
    · subst hk
      rw [e, if_pos rfl, if_pos (by simp [keysOf])]
      simp [keysOf]
    · rw [e, if_neg hk]
      have hiff : k ∈ keysOf ((k₀, v₀) :: t) ↔ k ∈ keysOf t := by
        simp [keysOf, Ne.symm hk]
      by_cases hm : k ∈ keysOf t
      · rw [if_pos (hiff.mpr hm)]
        simp only [keysOf, List.map_cons] at ih ⊢
        rw [ih, if_pos (by simpa [keysOf] using hm)]
      · rw [if_neg (fun hx => hm (hiff.mp hx))]
        simp only [keysOf, List.map_cons] at ih ⊢
        rw [ih, if_neg (by simpa [keysOf] using hm)]
        simp

lemma addTo_nodup (acc : List (String × ℚ)) (k : String) (v : ℚ)
    (h : (keysOf acc).Nodup) : (keysOf (addTo acc k v)).Nodup := by
  rw [addTo_keysOf]
  split_ifs with hm
  · exact h
  · rw [List.nodup_append]
    refine ⟨h, List.nodup_singleton k, ?_⟩
    intro a ha hb
    rw [List.mem_singleton] at hb
    exact hm (hb ▸ ha)

lemma accumulate_nodup (gi : List (String × String)) (s : List (String × ℚ)) :
    ∀ acc, (keysOf acc).Nodup → (keysOf (accumulate gi acc s)).Nodup := by
  induction s with
  | nil => intro acc h; exact h
  | cons gv t ih =>
    intro acc h
    obtain ⟨g, v⟩ := gv
    exact ih _ (addTo_nodup _ _ _ h)

lemma sumKey_of_not_mem (l : List (String × ℚ)) (m : String) (h : m ∉ keysOf l) :
    sumKey l m = 0 := by
  induction l with
  | nil => simp [sumKey]
  | cons a t ih =>
    simp only [keysOf, List.map_cons, List.mem_cons, not_or] at h
    rw [sumKey_cons, if_neg (fun hm => h.1 hm.symm), ih (by simpa [keysOf] using h.2)]
    simp

lemma sumKey_of_mem (l : List (String × ℚ)) (h : (keysOf l).Nodup) :
    ∀ mw ∈ l, sumKey l mw.1 = mw.2 := by
  induction l with
  | nil => intro mw hm; exact absurd hm (List.not_mem_nil mw)
  | cons a t ih =>
    intro mw hm
    simp only [keysOf, List.map_cons, List.nodup_cons] at h
    rcases List.mem_cons.mp hm with h1 | h1
    · subst h1
      rw [sumKey_cons, if_pos rfl,
        sumKey_of_not_mem t mw.1 (by simpa [keysOf] using h.1)]
      simp
    · have hne : a.1 ≠ mw.1 := by
        intro he
        exact h.1 (by rw [he]; exact List.mem_map_of_mem Prod.fst h1)
      rw [sumKey_cons, if_neg hne, ih (by simpa [keysOf] using h.2) mw h1]
      simp

lemma mechOf_not_mem (gi : List (String × String)) (g : String)
    (h : ∀ p ∈ gi, p.1 ≠ g) : mechOf gi g = "Non-Specific Resistance" := by
  unfold mechOf dictGet
  have : gi.reverse.find? (fun p => p.1 == g) = none := by
    rw [List.find?_eq_none]
    intro p hp
    simpa using h p (List.mem_reverse.mp hp)
  rw [this]

lemma addTo_ne_nil (acc : List (String × ℚ)) (k : String) (v : ℚ) :
    addTo acc k v ≠ [] := by
  cases acc with
  | nil => simp [addTo]
  | cons a t =>
    obtain ⟨k₀, v₀⟩ := a
    have e : addTo ((k₀, v₀) :: t) k v =
        if k₀ = k then (k₀, v₀ + v) :: t else (k₀, v₀) :: addTo t k v := rfl
    rw [e]
    split_ifs <;> simp

lemma accumulate_ne_nil (gi : List (String × String)) (s : List (String × ℚ)) :
    ∀ acc, acc ≠ [] → accumulate gi acc s ≠ [] := by
  induction s with
  | nil => intro acc h; exact h
  | cons gv t ih =>
    intro acc _
    obtain ⟨g, v⟩ := gv
    rw [accumulate]
    exact ih _ (addTo_ne_nil _ _ _)

lemma pyMaxAux_mem (l : List (String × ℚ)) :
    ∀ cur, pyMaxAux cur l ∈ cur :: l := by
  induction l with
  | nil => intro cur; exact List.mem_cons_self _ _
  | cons x t ih =>
    intro cur
    rw [pyMaxAux]
    rcases List.mem_cons.mp (ih (if x.2 > cur.2 then x else cur)) with h | h
    · rw [h]
      split_ifs
      · exact List.mem_cons_of_mem _ (List.mem_cons_self _ _)
      · exact List.mem_cons_self _ _
    · exact List.mem_cons_of_mem _ (List.mem_cons_of_mem _ h)

/-- Characterization of the running maximum: the returned dominant item
bounds the current item and every list item, and is either the current
item itself or sits at a position in the list such that the current item
and every list item strictly before that position have strictly smaller
value — i.e. the FIRST item attaining the maximum wins. -/
lemma pyMaxAux_spec (l : List (String × ℚ)) :
    ∀ cur, cur.2 ≤ (pyMaxAux cur l).2 ∧
      (∀ y ∈ l, y.2 ≤ (pyMaxAux cur l).2) ∧
      (pyMaxAux cur l = cur ∨ ∃ pre suf, l = pre ++ pyMaxAux cur l :: suf ∧
        cur.2 < (pyMaxAux cur l).2 ∧ ∀ y ∈ pre, y.2 < (pyMaxAux cur l).2) := by
  induction l with
  | nil =>
    intro cur
    exact ⟨le_rfl, fun y hy => absurd hy (List.not_mem_nil y), Or.inl rfl⟩
  | cons x t ih =>
    intro cur
    rw [pyMaxAux]
    by_cases hx : x.2 > cur.2
    · rw [if_pos hx]
      obtain ⟨h1, h2, h3⟩ := ih x
      refine ⟨le_of_lt (lt_of_lt_of_le hx h1), ?_, ?_⟩
      · intro y hy
        rcases List.mem_cons.mp hy with h | h
        · exact h ▸ h1
        · exact h2 y h
      · rcases h3 with h | ⟨pre, suf, he, hlt, hpre⟩
        · refine Or.inr ⟨[], t, ?_, ?_, ?_⟩
          · rw [h]
            rfl
          · rw [h]; exact hx
          · intro y hy; exact absurd hy (List.not_mem_nil y)
        · refine Or.inr ⟨x :: pre, suf, ?_, ?_, ?_⟩
          · nth_rewrite 1 [he]
            rw [List.cons_append]
          · exact lt_trans hx hlt
          · intro y hy
            rcases List.mem_cons.mp hy with h | h
            · exact h ▸ hlt
            · exact hpre y h
    · rw [if_neg hx]
      obtain ⟨h1, h2, h3⟩ := ih cur
      refine ⟨h1, ?_, ?_⟩
      · intro y hy
        rcases List.mem_cons.mp hy with h | h
        · exact h ▸ le_trans (le_of_not_lt hx) h1
        · exact h2 y h
      · rcases h3 with h | ⟨pre, suf, he, hlt, hpre⟩
        · exact Or.inl h
        · refine Or.inr ⟨x :: pre, suf, ?_, hlt, ?_⟩
          · nth_rewrite 1 [he]
            rw [List.cons_append]
          · intro y hy
            rcases List.mem_cons.mp hy with h | h
            · exact h ▸ lt_of_le_of_lt (le_of_not_lt hx) hlt
            · exact hpre y h

/-- Error of rounding to 3 decimal places: at most half of the last
kept digit, `1/2000 = 0.0005`. -/
lemma round3_err (q : ℚ) : |round3 q - q| ≤ 1 / 2000 := by
  have h := abs_sub_round ((1000 : ℚ) * q)
  have e : round3 q - q = (((round ((1000 : ℚ) * q)) : ℚ) - 1000 * q) / 1000 := by
    unfold round3
    ring
  rw [e, abs_div, abs_sub_comm]
  rw [show |(1000 : ℚ)| = 1000 by norm_num]
  linarith

/-- Total rounding error of normalizing a bucket list: each bucket
contributes at most `1/2000`. -/
lemma sum_round3_div (t : ℚ) (l : List (String × ℚ)) :
    |sumValues (l.map (fun kv => (kv.1, round3 (kv.2 / t)))) - sumValues l / t| ≤
      l.length * (1 / 2000) := by
  induction l with
  | nil => simp [sumValues]
  | cons kv l ih =>
    rw [List.map_cons, sumValues_cons, sumValues_cons]
    have e : round3 (kv.2 / t) + sumValues (l.map (fun kv => (kv.1, round3 (kv.2 / t)))) -
        (kv.2 + sumValues l) / t =
        (round3 (kv.2 / t) - kv.2 / t) +
          (sumValues (l.map (fun kv => (kv.1, round3 (kv.2 / t)))) - sumValues l / t) := by
      rw [add_div]
      ring
    calc |round3 (kv.2 / t) + sumValues (l.map (fun kv => (kv.1, round3 (kv.2 / t)))) -
        (kv.2 + sumValues l) / t|
        ≤ |round3 (kv.2 / t) - kv.2 / t| +
          |sumValues (l.map (fun kv => (kv.1, round3 (kv.2 / t)))) - sumValues l / t| := by
          rw [e]; exact abs_add _ _
      _ ≤ 1 / 2000 + l.length * (1 / 2000) := by
          have := round3_err (kv.2 / t)
          linarith
      _ = (kv :: l).length * (1 / 2000) := by
          rw [List.length_cons]
          push_cast
          ring

/-- Evaluation form of the aggregator when the total is positive. -/
lemma compute_eval_pos (gi : List (String × String)) (s ms : List (String × ℚ))
    (hacc : accumulate gi [] s = ms) (h : 0 < sumValues ms) :
    compute_sample_mechanisms gi s =
      ms.map (fun kv => (kv.1, round3 (kv.2 / sumValues ms))) := by
  simp only [compute_sample_mechanisms, hacc, if_pos h]

/-- Evaluation form of the aggregator when the total is not positive. -/
lemma compute_eval_zero (gi : List (String × String)) (s ms : List (String × ℚ))
    (hacc : accumulate gi [] s = ms) (h : ¬ 0 < sumValues ms) :
    compute_sample_mechanisms gi s = ms.map (fun kv => (kv.1, 0)) := by
  simp only [compute_sample_mechanisms, hacc, if_neg h]

/-- C2: the aggregator buckets raw abundances by canonical mechanism
(genes without a catalog entry fall to "Non-Specific Resistance"); with
a positive total every bucket's proportion is its sum divided by the
total, rounded to 3 decimals; with a zero total every bucket maps
to 0. -/
theorem claim_C2 (gi : List (String × String)) (s : List (String × ℚ)) :
    (∀ g : String, (∀ p ∈ gi, p.1 ≠ g) → mechOf gi g = "Non-Specific Resistance") ∧
    sumValues (accumulate gi [] s) = sumValues s ∧
    (0 < sumValues s →
      ∀ mw ∈ compute_sample_mechanisms gi s,
        mw.2 = round3 (specSum gi s mw.1 / sumValues s)) ∧
    (sumValues s = 0 → ∀ mw ∈ compute_sample_mechanisms gi s, mw.2 = 0) := by
  have htot : sumValues (accumulate gi [] s) = sumValues s := by
    rw [accumulate_sumValues]
    simp [sumValues]
  refine ⟨fun g hg => mechOf_not_mem gi g hg, htot, ?_, ?_⟩
  · intro hpos mw hmw
    have hgt : sumValues (accumulate gi [] s) > 0 := htot ▸ hpos
    simp only [compute_sample_mechanisms] at hmw
    rw [if_pos hgt] at hmw
    obtain ⟨kv, hkv, rfl⟩ := List.mem_map.mp hmw
    have hnd : (keysOf (accumulate gi [] s)).Nodup :=
      accumulate_nodup gi s [] (by simp [keysOf])
    have h1 := sumKey_of_mem _ hnd kv hkv
    have h2 := accumulate_sumKey gi s [] kv.1
    have h0 : sumKey ([] : List (String × ℚ)) kv.1 = 0 := by simp [sumKey]
    have hk : kv.2 = specSum gi s kv.1 := by
      rw [← h1, h2, h0, zero_add]
    show round3 (kv.2 / sumValues (accumulate gi [] s)) = _
    rw [hk, htot]
  · intro h0 mw hmw
    have hng : ¬ sumValues (accumulate gi [] s) > 0 := by
      rw [htot, h0]
      exact lt_irrefl 0
    simp only [compute_sample_mechanisms] at hmw
    rw [if_neg hng] at hmw
    obtain ⟨kv, hkv, rfl⟩ := List.mem_map.mp hmw
    rfl

/-- Witness for C2 on the spec's own scenario: catalog
`g1 → Efflux, g2 → Non-Specific Resistance`, row `g1=80, g2=20`; the
Efflux bucket's proportion is `0.8 = round3(80/100)`. -/
theorem claim_C2_witness :
    (0 : ℚ) < sumValues [("g1", (80 : ℚ)), ("g2", 20)] ∧
      (("Efflux", (4 : ℚ)/5) : String × ℚ).2 =
        round3 (specSum [("g1", "Efflux"), ("g2", "Non-Specific Resistance")]
            [("g1", (80 : ℚ)), ("g2", 20)] ("Efflux", (4 : ℚ)/5).1 /
          sumValues [("g1", (80 : ℚ)), ("g2", 20)]) := by
  have hpos : (0 : ℚ) < sumValues [("g1", (80 : ℚ)), ("g2", 20)] := by
    norm_num [sumValues]
  have m1 : mechOf [("g1", "Efflux"), ("g2", "Non-Specific Resistance")] "g1" =
      "Efflux" := by decide
  have m2 : mechOf [("g1", "Efflux"), ("g2", "Non-Specific Resistance")] "g2" =
      "Non-Specific Resistance" := by decide
  have hacc : accumulate [("g1", "Efflux"), ("g2", "Non-Specific Resistance")] []
      [("g1", (80 : ℚ)), ("g2", 20)] =
      [("Efflux", 80), ("Non-Specific Resistance", 20)] := by
    simp [accumulate, addTo, m1, m2]
  have he : compute_sample_mechanisms [("g1", "Efflux"), ("g2", "Non-Specific Resistance")]
      [("g1", (80 : ℚ)), ("g2", 20)] =
      [("Efflux", (4 : ℚ)/5), ("Non-Specific Resistance", 1/5)] := by
    rw [compute_eval_pos _ _ _ hacc (by norm_num [sumValues])]
    norm_num [sumValues, round3, round_eq]
  exact ⟨hpos,
    (claim_C2 [("g1", "Efflux"), ("g2", "Non-Specific Resistance")]
        [("g1", (80 : ℚ)), ("g2", 20)]).2.2.1 hpos
      ("Efflux", (4 : ℚ)/5) (by rw [he]; exact List.mem_cons_self _ _)⟩

/-- Counterexample for C4: on the all-zero one-gene row, the profile is
the non-empty `[("Efflux", 0)]`, and `interpret` returns the
"Multiple resistance mechanisms contributing equally" message, NOT the
"No significant resistance mechanisms detected" message the claim
asserts. -/
theorem claim_C4_counterexample :
    compute_sample_mechanisms [("g1", "Efflux")] [("g1", (0 : ℚ))] = [("Efflux", 0)] ∧
    interpret (compute_sample_mechanisms [("g1", "Efflux")] [("g1", (0 : ℚ))]) = msgMulti ∧
    msgMulti ≠ msgNoSig := by
  have m1 : mechOf [("g1", "Efflux")] "g1" = "Efflux" := by decide
  have hacc : accumulate [("g1", "Efflux")] [] [("g1", (0 : ℚ))] = [("Efflux", 0)] := by
    simp [accumulate, addTo, m1]
  have he : compute_sample_mechanisms [("g1", "Efflux")] [("g1", (0 : ℚ))] =
      [("Efflux", 0)] := by
    rw [compute_eval_zero _ _ _ hacc (by norm_num [sumValues])]
    simp
  refine ⟨he, ?_, by decide⟩
  rw [he, interpret_cons,
    show pyMaxAux ("Efflux", (0 : ℚ)) [] = ("Efflux", 0) from rfl,
    if_pos (show (("Efflux", (0 : ℚ)) : String × ℚ).2 < 3 / 10 by norm_num)]

/-- C4 (amended): for an all-zero sample row the profile maps every
present mechanism to 0; when the row is non-empty the profile is
non-empty and `interpret` returns the "Multiple resistance mechanisms
contributing equally" message (the "No significant..." message is
returned only for the empty row, whose profile is empty). -/
theorem claim_C4 (gi : List (String × String)) (s : List (String × ℚ))
    (hz : ∀ gv ∈ s, gv.2 = 0) :
    (∀ mw ∈ compute_sample_mechanisms gi s, mw.2 = 0) ∧
    (s ≠ [] → compute_sample_mechanisms gi s ≠ [] ∧
      interpret (compute_sample_mechanisms gi s) = msgMulti) ∧
    (s = [] → compute_sample_mechanisms gi s = [] ∧
      interpret (compute_sample_mechanisms gi s) = msgNoSig) := by
  have hs0 : sumValues s = 0 := by
    unfold sumValues
    apply List.sum_eq_zero
    intro x hx
    obtain ⟨gv, hgv, rfl⟩ := List.mem_map.mp hx
    exact hz gv hgv
  have hng : ¬ sumValues (accumulate gi [] s) > 0 := by
    rw [accumulate_sumValues, hs0]
    simp [sumValues]
  have hform : compute_sample_mechanisms gi s =
      (accumulate gi [] s).map (fun kv => (kv.1, 0)) := by
    simp only [compute_sample_mechanisms]
    rw [if_neg hng]
  have hzero : ∀ mw ∈ compute_sample_mechanisms gi s, mw.2 = 0 := by
    rw [hform]
    intro mw hmw
    obtain ⟨kv, _, rfl⟩ := List.mem_map.mp hmw
    rfl
  refine ⟨hzero, ?_, ?_⟩
  · intro hne
    have hms : accumulate gi [] s ≠ [] := by
      cases s with
      | nil => exact absurd rfl hne
      | cons gv t =>
        obtain ⟨g, v⟩ := gv
        rw [accumulate]
        exact accumulate_ne_nil gi t _ (addTo_ne_nil _ _ _)
    have hp : compute_sample_mechanisms gi s ≠ [] := by
      rw [hform]
      simpa using hms
    refine ⟨hp, ?_⟩
    obtain ⟨x, t, hxt⟩ := List.exists_cons_of_ne_nil hp
    rw [hxt, interpret_cons]
    have hdom : (pyMaxAux x t).2 = 0 := by
      rcases List.mem_cons.mp (pyMaxAux_mem t x) with h | h
      · rw [h]
        exact hzero x (by rw [hxt]; exact List.mem_cons_self _ _)
      · exact hzero _ (by rw [hxt]; exact List.mem_cons_of_mem _ h)
    rw [if_pos (by rw [hdom]; norm_num)]
  · intro he
    subst he
    have hnil : compute_sample_mechanisms gi [] = [] := rfl
    exact ⟨hnil, by rw [hnil]; rfl⟩

/-- Witness for C4 on the all-zero two-gene row: the profile is
non-empty and interpreted as "Multiple resistance mechanisms
contributing equally". -/
theorem claim_C4_witness :
    compute_sample_mechanisms [("g1", "Efflux"), ("g2", "Other")]
        [("g1", (0 : ℚ)), ("g2", 0)] ≠ [] ∧
      interpret (compute_sample_mechanisms [("g1", "Efflux"), ("g2", "Other")]
        [("g1", (0 : ℚ)), ("g2", 0)]) = msgMulti :=
  (claim_C4 [("g1", "Efflux"), ("g2", "Other")] [("g1", (0 : ℚ)), ("g2", 0)]
    (by decide)).2.1 (by decide)

/-- Counterexample for C7: a five-bucket profile whose proportions each
round upward; the rounded proportions sum to 1.002, which lies outside
`[1 - 3ε, 1 + 3ε]` for ε = 0.0005, although the total abundance is
positive. -/
theorem claim_C7_counterexample :
    (0 : ℚ) < sumValues [("g1", (998 : ℚ)), ("g2", 998), ("g3", 998),
        ("g4", 1003), ("g5", 1003)] ∧
    sumValues (compute_sample_mechanisms
        [("g1", "Efflux"), ("g2", "β-lactamase"), ("g3", "Target Alteration"),
         ("g4", "Target Protection"), ("g5", "Non-Specific Resistance")]
        [("g1", (998 : ℚ)), ("g2", 998), ("g3", 998), ("g4", 1003), ("g5", 1003)]) =
      501 / 500 ∧
    ¬ (1 - 3 * (1 / 2000) ≤ (501 / 500 : ℚ) ∧
        (501 / 500 : ℚ) ≤ 1 + 3 * (1 / 2000)) := by
  have m1 : mechOf [("g1", "Efflux"), ("g2", "β-lactamase"), ("g3", "Target Alteration"),
      ("g4", "Target Protection"), ("g5", "Non-Specific Resistance")] "g1" = "Efflux" := by
    decide
  have m2 : mechOf [("g1", "Efflux"), ("g2", "β-lactamase"), ("g3", "Target Alteration"),
      ("g4", "Target Protection"), ("g5", "Non-Specific Resistance")] "g2" =
      "β-lactamase" := by decide
  have m3 : mechOf [("g1", "Efflux"), ("g2", "β-lactamase"), ("g3", "Target Alteration"),
      ("g4", "Target Protection"), ("g5", "Non-Specific Resistance")] "g3" =
      "Target Alteration" := by decide
  have m4 : mechOf [("g1", "Efflux"), ("g2", "β-lactamase"), ("g3", "Target Alteration"),
      ("g4", "Target Protection"), ("g5", "Non-Specific Resistance")] "g4" =
      "Target Protection" := by decide
  have m5 : mechOf [("g1", "Efflux"), ("g2", "β-lactamase"), ("g3", "Target Alteration"),
      ("g4", "Target Protection"), ("g5", "Non-Specific Resistance")] "g5" =
      "Non-Specific Resistance" := by decide
  have hacc : accumulate [("g1", "Efflux"), ("g2", "β-lactamase"), ("g3", "Target Alteration"),
      ("g4", "Target Protection"), ("g5", "Non-Specific Resistance")] []
      [("g1", (998 : ℚ)), ("g2", 998), ("g3", 998), ("g4", 1003), ("g5", 1003)] =
      [("Efflux", 998), ("β-lactamase", 998), ("Target Alteration", 998),
       ("Target Protection", 1003), ("Non-Specific Resistance", 1003)] := by
    simp [accumulate, addTo, m1, m2, m3, m4, m5]
  have he : compute_sample_mechanisms
      [("g1", "Efflux"), ("g2", "β-lactamase"), ("g3", "Target Alteration"),
       ("g4", "Target Protection"), ("g5", "Non-Specific Resistance")]
      [("g1", (998 : ℚ)), ("g2", 998), ("g3", 998), ("g4", 1003), ("g5", 1003)] =
      [("Efflux", (1 : ℚ)/5), ("β-lactamase", 1/5), ("Target Alteration", 1/5),
       ("Target Protection", 201/1000), ("Non-Specific Resistance", 201/1000)] := by
    rw [compute_eval_pos _ _ _ hacc (by norm_num [sumValues])]
    norm_num [sumValues, round3, round_eq]
  refine ⟨by norm_num [sumValues], ?_, by norm_num⟩
  rw [he]
  norm_num [sumValues]

/-- C7 (amended): for a sample row with positive total abundance, the
sum of the rounded proportions differs from 1 by at most `m·ε` where
`m` is the number of mechanism buckets and ε = 0.0005; the claim's
`3ε` interval is guaranteed only for profiles of at most 3 buckets. -/
theorem claim_C7 (gi : List (String × String)) (s : List (String × ℚ))
    (h : 0 < sumValues s) :
    |sumValues (compute_sample_mechanisms gi s) - 1| ≤
      (compute_sample_mechanisms gi s).length * (1 / 2000) := by
  have htot : sumValues (accumulate gi [] s) = sumValues s := by
    rw [accumulate_sumValues]
    simp [sumValues]
  have hgt : sumValues (accumulate gi [] s) > 0 := by
    rw [htot]
    exact h
  have hform : compute_sample_mechanisms gi s =
      (accumulate gi [] s).map
        (fun kv => (kv.1, round3 (kv.2 / sumValues (accumulate gi [] s)))) := by
    simp only [compute_sample_mechanisms]
    rw [if_pos hgt]
  rw [hform]
  have hb := sum_round3_div (sumValues (accumulate gi [] s)) (accumulate gi [] s)
  rw [div_self (ne_of_gt hgt)] at hb
  simpa using hb

/-- Witness for C7 on a one-gene row with positive abundance. -/
theorem claim_C7_witness :
    |sumValues (compute_sample_mechanisms [("g1", "Efflux")] [("g1", (1 : ℚ))]) - 1| ≤
      (compute_sample_mechanisms [("g1", "Efflux")] [("g1", (1 : ℚ))]).length *
        (1 / 2000) :=
  claim_C7 [("g1", "Efflux")] [("g1", (1 : ℚ))] (by norm_num [sumValues])

/-- C3: for every non-empty profile, the dominant mechanism is the
FIRST entry attaining the maximum proportion (insertion order breaks
ties), and the rules fire in fixed priority order: a dominant
proportion below 0.30 yields the "contributing equally" message
whatever the dominant label is; otherwise the non-specific, β-lactamase
and efflux tests apply in that order, with "Mixed resistance mechanisms
observed" as the final fallback; an earlier match shadows all later
rules (the empty profile is answered first with its own message). -/
theorem claim_C3 (x : String × ℚ) (t : List (String × ℚ)) :
    interpret [] = msgNoSig ∧
    (∀ y ∈ x :: t, y.2 ≤ (pyMaxAux x t).2) ∧
    (∃ pre suf, x :: t = pre ++ pyMaxAux x t :: suf ∧
      ∀ y ∈ pre, y.2 < (pyMaxAux x t).2) ∧
    ((pyMaxAux x t).2 < 3 / 10 → interpret (x :: t) = msgMulti) ∧
    (¬ (pyMaxAux x t).2 < 3 / 10 →
      pyIn "non-specific" (pyLower (pyMaxAux x t).1) = true →
      interpret (x :: t) = msgNonSpec) ∧
    (¬ (pyMaxAux x t).2 < 3 / 10 →
      pyIn "non-specific" (pyLower (pyMaxAux x t).1) = false →
      (pyIn "β-lactamase" (pyMaxAux x t).1
        || pyIn "beta-lactamase" (pyLower (pyMaxAux x t).1)) = true →
      interpret (x :: t) = msgBeta) ∧
    (¬ (pyMaxAux x t).2 < 3 / 10 →
      pyIn "non-specific" (pyLower (pyMaxAux x t).1) = false →
      (pyIn "β-lactamase" (pyMaxAux x t).1
        || pyIn "beta-lactamase" (pyLower (pyMaxAux x t).1)) = false →
      pyIn "efflux" (pyLower (pyMaxAux x t).1) = true →
      interpret (x :: t) = msgEfflux) ∧
    (¬ (pyMaxAux x t).2 < 3 / 10 →
      pyIn "non-specific" (pyLower (pyMaxAux x t).1) = false →
      (pyIn "β-lactamase" (pyMaxAux x t).1
        || pyIn "beta-lactamase" (pyLower (pyMaxAux x t).1)) = false →
      pyIn "efflux" (pyLower (pyMaxAux x t).1) = false →
      interpret (x :: t) = msgMixed) := by
  obtain ⟨h1, h2, h3⟩ := pyMaxAux_spec t x
  refine ⟨rfl, ?_, ?_, ?_, ?_, ?_, ?_, ?_⟩
  · intro y hy
    rcases List.mem_cons.mp hy with h | h
    · exact h ▸ h1
    · exact h2 y h
  · rcases h3 with h | ⟨pre, suf, he, hlt, hpre⟩
    · refine ⟨[], t, ?_, ?_⟩
      · rw [h]
        rfl
      · intro y hy
        exact absurd hy (List.not_mem_nil y)
    · refine ⟨x :: pre, suf, ?_, ?_⟩
      · nth_rewrite 1 [he]
        rw [List.cons_append]
      · intro y hy
        rcases List.mem_cons.mp hy with h | h
        · exact h ▸ hlt
        · exact hpre y h
  · intro hlt
    rw [interpret_cons, if_pos hlt]
  · intro hge hns
    rw [interpret_cons, if_neg hge, if_pos hns]
  · intro hge hns hb
    rw [interpret_cons, if_neg hge, if_neg (by simp [hns]), if_pos hb]
  · intro hge hns hb heff
    rw [interpret_cons, if_neg hge, if_neg (by simp [hns]), if_neg (by simp [hb]),
      if_pos heff]
  · intro hge hns hb heff
    rw [interpret_cons, if_neg hge, if_neg (by simp [hns]), if_neg (by simp [hb]),
      if_neg (by simp [heff])]

/-- Witness for C3 on a concrete profile with a two-way tie at 2/5:
the first tied mechanism (Efflux) wins and its rule fires. -/
theorem claim_C3_witness :
    interpret [("Other", (1 : ℚ)/5), ("Efflux", (2 : ℚ)/5), ("Foo", (2 : ℚ)/5)] =
      msgEfflux := by
  have hm : pyMaxAux ("Other", (1 : ℚ)/5) [("Efflux", (2 : ℚ)/5), ("Foo", (2 : ℚ)/5)] =
      ("Efflux", (2 : ℚ)/5) := by
    rw [pyMaxAux, if_pos (by norm_num), pyMaxAux, if_neg (by norm_num), pyMaxAux]
  exact (claim_C3 ("Other", (1 : ℚ)/5)
      [("Efflux", (2 : ℚ)/5), ("Foo", (2 : ℚ)/5)]).2.2.2.2.2.2.1
    (by rw [hm]; norm_num) (by rw [hm]; decide) (by rw [hm]; decide) (by rw [hm]; decide)

/-- Counterexample for C5: the label "β-Lactamase" contains
"β-lactamase" under case-insensitive matching (lowering gives exactly
"β-lactamase"), it dominates with proportion 1 ≥ 0.30 and is not
non-specific, yet `interpret` returns the "Mixed" message, because the
code tests the "β-lactamase" spelling case-SENSITIVELY against the
original label. -/
theorem claim_C5_counterexample :
    pyIn "β-lactamase" (pyLower "β-Lactamase") = true ∧
    (3 : ℚ)/10 ≤ (pyMaxAux ("β-Lactamase", (1 : ℚ)) []).2 ∧
    pyIn "non-specific" (pyLower "β-Lactamase") = false ∧
    interpret [("β-Lactamase", (1 : ℚ))] = msgMixed ∧
    msgMixed ≠ msgBeta := by
  refine ⟨by decide, by norm_num [pyMaxAux], by decide, ?_, by decide⟩
  rw [interpret_cons,
    show pyMaxAux ("β-Lactamase", (1 : ℚ)) [] = ("β-Lactamase", 1) from rfl,
    if_neg (show ¬ (("β-Lactamase", (1 : ℚ)) : String × ℚ).2 < 3 / 10 by norm_num),
    if_neg (by decide), if_neg (by decide), if_neg (by decide)]

/-- C5 (amended): the β-lactamase rule fires when the dominant label
(proportion ≥ 0.30, not non-specific) contains the spelling
"β-lactamase" with that exact casing, or the spelling "beta-lactamase"
case-insensitively; only the latter spelling is matched against the
lowered label. -/
theorem claim_C5 (x : String × ℚ) (t : List (String × ℚ))
    (h₁ : 3 / 10 ≤ (pyMaxAux x t).2)
    (h₂ : pyIn "non-specific" (pyLower (pyMaxAux x t).1) = false)
    (h₃ : pyIn "β-lactamase" (pyMaxAux x t).1 = true ∨
      pyIn "beta-lactamase" (pyLower (pyMaxAux x t).1) = true) :
    interpret (x :: t) = msgBeta := by
  have hb : (pyIn "β-lactamase" (pyMaxAux x t).1
      || pyIn "beta-lactamase" (pyLower (pyMaxAux x t).1)) = true := by
    rcases h₃ with h | h <;> simp [h]
  rw [interpret_cons, if_neg (not_lt.mpr h₁), if_neg (by simp [h₂]), if_pos hb]

/-- Witness for C5: a dominant label carrying the "beta-lactamase"
spelling in mixed case is matched case-insensitively. -/
theorem claim_C5_witness :
    interpret [("beta-Lactamase", (1 : ℚ))] = msgBeta :=
  claim_C5 ("beta-Lactamase", 1) [] (by norm_num [pyMaxAux]) (by decide)
    (Or.inr (by decide))

/-- C6: when the uploaded table misses at least one required gene,
processing yields the validation failure carrying the full missing set
and the found/missing counts, and the outcome is the same whatever the
scaler and predictor are — they are never invoked; when nothing is
missing, the table is projected to exactly the catalog's gene order and
the scaler receives each projected row's values. -/
theorem claim_C6 (gi : List (String × String)) (tbl : Table)
    (f₁ f₂ : List ℚ → List ℚ) (g₁ g₂ : List ℚ → ℚ) :
    (missingGenes gi tbl ≠ [] →
      processTable gi f₁ g₁ tbl =
        .invalid (missingGenes gi tbl) (foundCount gi tbl)
          (missingGenes gi tbl).length ∧
      processTable gi f₁ g₁ tbl = processTable gi f₂ g₂ tbl) ∧
    (missingGenes gi tbl = [] →
      processTable gi f₁ g₁ tbl =
        .success
          (tbl.rows.map (fun r => (r.1, (topGenes gi).map (fun gn => (gn, rowGet r.2 gn)))))
          ((tbl.rows.map
              (fun r => (r.1, (topGenes gi).map (fun gn => (gn, rowGet r.2 gn))))).map
            (fun r =>
              ⟨r.1, g₁ (f₁ (r.2.map Prod.snd)),
               risk_category (g₁ (f₁ (r.2.map Prod.snd))),
               compute_sample_mechanisms gi r.2,
               interpret (compute_sample_mechanisms gi r.2)⟩)) ∧
      ∀ r ∈ tbl.rows.map
          (fun r => (r.1, (topGenes gi).map (fun gn => (gn, rowGet r.2 gn)))),
        r.2.map Prod.fst = topGenes gi) := by
  constructor
  · intro h
    have hne : ¬ (missingGenes gi tbl).isEmpty = true := by
      simpa [List.isEmpty_iff] using h
    constructor
    · simp only [processTable]
      rw [if_neg hne]
    · simp only [processTable]
      rw [if_neg hne, if_neg hne]
  · intro h
    have he : (missingGenes gi tbl).isEmpty = true := by
      simp [List.isEmpty_iff, h]
    refine ⟨?_, ?_⟩
    · simp only [processTable]
      rw [if_pos he]
    · intro r hr
      obtain ⟨r₀, hr₀, rfl⟩ := List.mem_map.mp hr
      show ((topGenes gi).map (fun gn => (gn, rowGet r₀.2 gn))).map Prod.fst = topGenes gi
      rw [List.map_map,
        show (Prod.fst ∘ fun gn => (gn, rowGet r₀.2 gn)) = id from rfl, List.map_id]

/-- Witness for C6 on a table missing gene g2: validation fails with
the singleton missing set and counts (1 found, 1 missing), regardless
of the scaler/predictor pair. -/
theorem claim_C6_witness :
    processTable [("g1", "Efflux"), ("g2", "Other")] (fun v => v) (fun _ => 0)
        ⟨["g1"], [("s1", [("g1", (1 : ℚ))])]⟩ =
      .invalid
        (missingGenes [("g1", "Efflux"), ("g2", "Other")]
          ⟨["g1"], [("s1", [("g1", (1 : ℚ))])]⟩)
        (foundCount [("g1", "Efflux"), ("g2", "Other")]
          ⟨["g1"], [("s1", [("g1", (1 : ℚ))])]⟩)
        (missingGenes [("g1", "Efflux"), ("g2", "Other")]
          ⟨["g1"], [("s1", [("g1", (1 : ℚ))])]⟩).length ∧
      processTable [("g1", "Efflux"), ("g2", "Other")] (fun v => v) (fun _ => 0)
          ⟨["g1"], [("s1", [("g1", (1 : ℚ))])]⟩ =
        processTable [("g1", "Efflux"), ("g2", "Other")] (fun _ => []) (fun _ => 1)
          ⟨["g1"], [("s1", [("g1", (1 : ℚ))])]⟩ :=
  (claim_C6 [("g1", "Efflux"), ("g2", "Other")]
      ⟨["g1"], [("s1", [("g1", (1 : ℚ))])]⟩
      (fun v => v) (fun _ => []) (fun _ => 0) (fun _ => 1)).1 (by decide)

/-- C10: for a table that passes validation, processing succeeds with
the projected rows, and every gene key of every projected row has an
entry in the catalog's gene-to-mechanism dict — hence `dictGet` returns
the same mechanism whatever default it is given, so the
"Non-Specific Resistance" unrecognized-gene fallback branch is never
taken in the scoring pipeline. -/
theorem claim_C10 (gi : List (String × String)) (tbl : Table)
    (f : List ℚ → List ℚ) (g : List ℚ → ℚ)
    (hv : missingGenes gi tbl = []) :
    (∃ rs, processTable gi f g tbl =
      .success
        (tbl.rows.map (fun r => (r.1, (topGenes gi).map (fun gn => (gn, rowGet r.2 gn)))))
        rs) ∧
    ∀ r ∈ tbl.rows.map
        (fun r => (r.1, (topGenes gi).map (fun gn => (gn, rowGet r.2 gn)))),
      ∀ gv ∈ r.2,
        (∃ p ∈ gi, p.1 = gv.1) ∧
        ∀ dflt, dictGet gi gv.1 dflt = mechOf gi gv.1 := by
  have he : (missingGenes gi tbl).isEmpty = true := by
    simp [List.isEmpty_iff, hv]
  constructor
  · refine ⟨(tbl.rows.map
        (fun r => (r.1, (topGenes gi).map (fun gn => (gn, rowGet r.2 gn))))).map
      (fun r => ⟨r.1, g (f (r.2.map Prod.snd)),
        risk_category (g (f (r.2.map Prod.snd))),
        compute_sample_mechanisms gi r.2,
        interpret (compute_sample_mechanisms gi r.2)⟩), ?_⟩
    simp only [processTable]
    rw [if_pos he]
  · intro r hr gv hgv
    obtain ⟨r₀, hr₀, rfl⟩ := List.mem_map.mp hr
    obtain ⟨gname, hg, rfl⟩ := List.mem_map.mp hgv
    obtain ⟨p, hp₁, hp₂⟩ := List.mem_map.mp hg
    refine ⟨⟨p, hp₁, hp₂⟩, ?_⟩
    intro dflt
    have hsome : ∃ q, gi.reverse.find? (fun q => q.1 == gname) = some q := by
      rw [← Option.isSome_iff_exists, List.find?_isSome]
      exact ⟨p, List.mem_reverse.mpr hp₁, by simpa using hp₂⟩
    obtain ⟨q, hq⟩ := hsome
    show dictGet gi gname dflt = mechOf gi gname
    unfold mechOf dictGet
    rw [hq]

/-- Witness for C10 on a validated table with one catalog gene and one
extra column: the projected row's gene key g1 has a catalog entry and
the dict lookup ignores the default. -/
theorem claim_C10_witness :
    (∃ p ∈ [("g1", "Efflux")], p.1 = "g1") ∧
    dictGet [("g1", "Efflux")] "g1" "Ignored Default" =
      mechOf [("g1", "Efflux")] "g1" := by
  have h := (claim_C10 [("g1", "Efflux")]
      ⟨["g1", "extra"], [("s1", [("g1", (2 : ℚ)), ("extra", 7)])]⟩
      (fun v => v) (fun _ => 0) (by decide)).2
  have hr := h _ (List.mem_map_of_mem _ (List.mem_cons_self _ _)) _
    (List.mem_map_of_mem _
      (show "g1" ∈ topGenes [("g1", "Efflux")] from by decide))
  exact ⟨hr.1, hr.2 "Ignored Default"⟩

end AMR
